import Mathlib

/-
Verification development for the stock_trading repository.

Shallow embedding of the feature-engineering / sequence-modelling pipeline:
  * process_stock_data.py : compute_indicators (indicator engine)
  * model.py              : format_feature, create_sequences, the MinMaxScaler
                            usage, the train/val preparation and the validation
                            inference loop of train_and_predict_lstm /
                            train_and_predict_gru.

Machine floats are modelled by exact rationals extended with nan / +inf / -inf
(`PFloat`), mirroring IEEE special-value propagation without rounding, which is
the standard idealisation for pandas/numpy arithmetic.  The floating-point
square root used by pandas rolling std is an external numeric primitive and is
modelled as an abstract function parameter `f : ℚ → ℚ`.
-/

namespace ST

/-- Pandas/numpy scalar: an exact rational, or one of the IEEE special values
nan, +inf, -inf.  Rounding is not modelled; special-value propagation is. -/
inductive PFloat where
  | nan : PFloat
  | inf : PFloat
  | ninf : PFloat
  | val : ℚ → PFloat
deriving DecidableEq, Repr, Inhabited

namespace PFloat

/-- IEEE addition on extended rationals. -/
def add : PFloat → PFloat → PFloat
  | nan, _ => nan
  | _, nan => nan
  | inf, ninf => nan
  | ninf, inf => nan
  | inf, _ => inf
  | _, inf => inf
  | ninf, _ => ninf
  | _, ninf => ninf
  | val a, val b => val (a + b)

/-- IEEE negation. -/
def neg : PFloat → PFloat
  | nan => nan
  | inf => ninf
  | ninf => inf
  | val a => val (-a)

/-- IEEE subtraction. -/
def sub (a b : PFloat) : PFloat := add a (neg b)

/-- IEEE multiplication (inf * 0 = nan). -/
def mul : PFloat → PFloat → PFloat
  | nan, _ => nan
  | _, nan => nan
  | inf, inf => inf
  | inf, ninf => ninf
  | ninf, inf => ninf
  | ninf, ninf => inf
  | inf, val b => if 0 < b then inf else if b < 0 then ninf else nan
  | val a, inf => if 0 < a then inf else if a < 0 then ninf else nan
  | ninf, val b => if 0 < b then ninf else if b < 0 then inf else nan
  | val a, ninf => if 0 < a then ninf else if a < 0 then inf else nan
  | val a, val b => val (a * b)

/-- IEEE division; the unsigned rational zero acts as +0, so x/0 has the sign
of x (numpy float behaviour: 1.0/0.0 = inf, 0.0/0.0 = nan). -/
def div : PFloat → PFloat → PFloat
  | nan, _ => nan
  | _, nan => nan
  | inf, inf => nan
  | inf, ninf => nan
  | ninf, inf => nan
  | ninf, ninf => nan
  | inf, val b => if b < 0 then ninf else inf
  | ninf, val b => if b < 0 then inf else ninf
  | val _, inf => val 0
  | val _, ninf => val 0
  | val a, val b =>
      if b = 0 then (if 0 < a then inf else if a < 0 then ninf else nan)
      else val (a / b)

/-- IEEE absolute value. -/
def pabs : PFloat → PFloat
  | nan => nan
  | inf => inf
  | ninf => inf
  | val a => val |a|

/-- Comparison returning a Bool, false whenever a nan is involved
(Python/numpy float comparison semantics). -/
def ltB : PFloat → PFloat → Bool
  | nan, _ => false
  | _, nan => false
  | inf, _ => false
  | _, inf => true
  | ninf, ninf => false
  | ninf, _ => true
  | _, ninf => false
  | val a, val b => decide (a < b)

/-- Strict greater-than with nan-is-false semantics. -/
def gtB (a b : PFloat) : Bool := ltB b a

/-- Series.clip(lower=q): pointwise max with q, nan preserved. -/
def clipLower (q : ℚ) : PFloat → PFloat
  | nan => nan
  | inf => inf
  | ninf => val q
  | val a => val (max a q)

/-- Series.clip(upper=q): pointwise min with q, nan preserved. -/
def clipUpper (q : ℚ) : PFloat → PFloat
  | nan => nan
  | inf => val q
  | ninf => ninf
  | val a => val (min a q)

/-- DataFrame.max(axis=1) with the default skipna=True: nan operands are
ignored, the maximum of the remaining values is returned. -/
def pmax : PFloat → PFloat → PFloat
  | nan, b => b
  | a, nan => a
  | inf, _ => inf
  | _, inf => inf
  | ninf, b => b
  | a, ninf => a
  | val a, val b => val (max a b)

/-- Square root lifted through the special values; the finite case is the
abstract numeric primitive f (floating sqrt). -/
def psqrt (f : ℚ → ℚ) : PFloat → PFloat
  | nan => nan
  | inf => inf
  | ninf => nan
  | val a => if a < 0 then nan else val (f a)

/-- True exactly on the nan value. -/
def isNaN : PFloat → Bool
  | nan => true
  | _ => false

instance : Add PFloat := ⟨add⟩
instance : Neg PFloat := ⟨neg⟩
instance : Sub PFloat := ⟨sub⟩
instance : Mul PFloat := ⟨mul⟩
instance : Div PFloat := ⟨div⟩

/-- Notation unfolding for addition. -/
lemma add_def (a b : PFloat) : a + b = add a b := rfl

/-- Notation unfolding for negation. -/
lemma neg_def (a : PFloat) : -a = neg a := rfl

/-- Notation unfolding for subtraction. -/
lemma sub_def (a b : PFloat) : a - b = sub a b := rfl

/-- Notation unfolding for multiplication. -/
lemma mul_def (a b : PFloat) : a * b = mul a b := rfl

/-- Notation unfolding for division. -/
lemma div_def (a b : PFloat) : a / b = div a b := rfl

end PFloat

/-- A time series is a function from row position to a pandas scalar;
positions at or beyond the frame length carry nan. -/
abbrev Series := ℕ → PFloat

/-- Sum of a list of pandas scalars (nan-propagating, exact otherwise). -/
def psum (l : List PFloat) : PFloat := l.foldr PFloat.add (.val 0)

/-- Series.shift(1): position 0 becomes nan, position i reads i-1. -/
def shift1 (s : Series) : Series := fun i => if i = 0 then .nan else s (i - 1)

/-- Series.diff(): first difference, nan at position 0. -/
def diffS (s : Series) : Series := fun i => s i - shift1 s i

/-- The w trailing values of a series at position i (the rolling window
ending at i, most recent first). -/
def windowVals (w : ℕ) (s : Series) (i : ℕ) : List PFloat :=
  (List.range w).map (fun j => s (i - j))

/-- Series.rolling(window=w).mean() with the default min_periods=w: nan for
the first w-1 positions, otherwise the mean of the w trailing values
(nan-propagating when the window contains a missing value). -/
def rollingMean (w : ℕ) (s : Series) : Series := fun i =>
  if i + 1 < w then .nan
  else psum (windowVals w s i) / .val (w : ℚ)

/-- Series.rolling(window=w).std() (sample standard deviation, ddof=1),
with f the abstract floating square root. -/
def rollingStd (f : ℚ → ℚ) (w : ℕ) (s : Series) : Series := fun i =>
  if i + 1 < w then .nan
  else
    let m := psum (windowVals w s i) / .val (w : ℚ)
    PFloat.psqrt f
      (psum ((windowVals w s i).map (fun x => (x - m) * (x - m))) /
        .val ((w : ℚ) - 1))

/-- Series.ewm(span, adjust=False).mean() as the recurrence
y 0 = x 0, y (i+1) = (1-a) * y i + a * x (i+1) with a = 2/(span+1).
The call sites apply it to the forward-filled Close column, which holds no
missing values inside the frame. -/
def ewmF (a : ℚ) (s : Series) : Series
  | 0 => s 0
  | i + 1 => .val (1 - a) * ewmF a s i + .val a * s (i + 1)

/-- Series.cumsum() as a running total (inputs at the call sites are free of
missing values inside the frame). -/
def csum (s : Series) : Series
  | 0 => s 0
  | i + 1 => csum s i + s (i + 1)

/-- One raw OHLCV bar.  Field names mirror the frame's column names. -/
structure Bar where
  Open : ℚ
  High : ℚ
  Low : ℚ
  Close : ℚ
  Volume : ℚ
deriving DecidableEq, Repr, Inhabited

/-- A calendar date of the DatetimeIndex, exposing the year/month/day
components read by compute_indicators. -/
structure TradingDate where
  year : ℤ
  month : ℤ
  day : ℤ
deriving DecidableEq, Repr, Inhabited

/-- The input DataFrame of compute_indicators: a date-indexed OHLCV table.
hasClose records whether the frame has a Close column at all (the guard
tests `df_stock.empty or not Close in columns`); when it is false the bar
close values are meaningless.  The remaining OHLCV columns are assumed
present, as every caller supplies them. -/
structure RawFrame where
  rows : List (TradingDate × Bar)
  hasClose : Bool
deriving DecidableEq, Repr, Inhabited

/-- The bar sequence of a frame. -/
def RawFrame.bars (fr : RawFrame) : List Bar := fr.rows.map (·.2)

/-- Raw (pre-outlier-handling) column value at a position. -/
def rawAt (p : Bar → ℚ) (bars : List Bar) : Series := fun i =>
  match bars.get? i with
  | some b => .val (p b)
  | none => .nan

/-- change = df_stock[Close].pct_change(): nan at position 0, otherwise
(c_i - c_(i-1)) / c_(i-1), computed on the raw closes (line 71 runs before
the in-place outlier replacement of line 72). -/
def rawPct (bars : List Bar) : Series := fun i =>
  if i = 0 then .nan
  else (rawAt Bar.Close bars i - rawAt Bar.Close bars (i - 1)) /
    rawAt Bar.Close bars (i - 1)

/-- The outlier mask change.abs() > 0.3 (nan compares false, so row 0 is
never flagged). -/
def outlier (bars : List Bar) (i : ℕ) : Bool :=
  ((rawPct bars i).pabs).gtB (.val (3 / 10))

/-- The OHLCV row visible after lines 72 and 75: an outlier row has its five
values set to missing and the whole frame is forward-filled, so it carries
the previous (already filled) row; chained outliers resolve to the last
non-outlier row.  Positions at or beyond the frame length are never read. -/
def prepBar (bars : List Bar) : ℕ → Bar
  | 0 => bars.getD 0 default
  | i + 1 => if outlier bars (i + 1) then prepBar bars i else bars.getD (i + 1) default

/-- Forward-filled column as a series (nan outside the frame). -/
def prepAt (p : Bar → ℚ) (bars : List Bar) : Series := fun i =>
  if i < bars.length then .val (p (prepBar bars i)) else .nan

/-- The caller's OHLCV data after a (guard-passing) call: compute_indicators
mutates df_stock in place, so the caller observes the forward-filled bars. -/
def callerBarsAfter (bars : List Bar) : List Bar :=
  (List.range bars.length).map (prepBar bars)

/-- MA5 column: Close.shift(1).rolling(5).mean(). -/
def MA5col (bars : List Bar) : Series := rollingMean 5 (shift1 (prepAt Bar.Close bars))

/-- MA10 column: Close.shift(1).rolling(10).mean(). -/
def MA10col (bars : List Bar) : Series := rollingMean 10 (shift1 (prepAt Bar.Close bars))

/-- MA20 column: Close.shift(1).rolling(20).mean(). -/
def MA20col (bars : List Bar) : Series := rollingMean 20 (shift1 (prepAt Bar.Close bars))

/-- MA50 column: Close.shift(1).rolling(50).mean(). -/
def MA50col (bars : List Bar) : Series := rollingMean 50 (shift1 (prepAt Bar.Close bars))

/-- RSI before the final shift: 100 - 100/(1 + rs) with
rs = mean gain / mean loss over 14 periods. -/
def rsiRaw (bars : List Bar) : Series := fun i =>
  let pchg := diffS (prepAt Bar.Close bars)
  let rise := fun j => (pchg j).clipLower 0
  let drop := fun j => -((pchg j).clipUpper 0)
  let rs := rollingMean 14 rise i / rollingMean 14 drop i
  .val 100 - .val 100 / (.val 1 + rs)

/-- RSI column (shifted one period). -/
def RSIcol (bars : List Bar) : Series := shift1 (rsiRaw bars)

/-- MACD before the final shift: ewm(span=12) - ewm(span=26) of Close,
with the adjust=False recurrence (alpha = 2/(span+1)). -/
def macdRaw (bars : List Bar) : Series := fun i =>
  ewmF (2 / 13) (prepAt Bar.Close bars) i - ewmF (2 / 27) (prepAt Bar.Close bars) i

/-- MACD column (shifted one period). -/
def MACDcol (bars : List Bar) : Series := shift1 (macdRaw bars)

/-- VWAP before the final shift: cumulative (Close*Volume) over cumulative
Volume. -/
def vwapRaw (bars : List Bar) : Series := fun i =>
  csum (fun j => prepAt Bar.Close bars j * prepAt Bar.Volume bars j) i /
    csum (prepAt Bar.Volume bars) i

/-- VWAP column (shifted one period). -/
def VWAPcol (bars : List Bar) : Series := shift1 (vwapRaw bars)

/-- Upper Bollinger band column: (sma20 + 2*std20).shift(1); f is the
abstract floating square root used by rolling std. -/
def upperBandCol (f : ℚ → ℚ) (bars : List Bar) : Series :=
  shift1 (fun i =>
    rollingMean 20 (prepAt Bar.Close bars) i +
      .val 2 * rollingStd f 20 (prepAt Bar.Close bars) i)

/-- Lower Bollinger band column: (sma20 - 2*std20).shift(1). -/
def lowerBandCol (f : ℚ → ℚ) (bars : List Bar) : Series :=
  shift1 (fun i =>
    rollingMean 20 (prepAt Bar.Close bars) i -
      .val 2 * rollingStd f 20 (prepAt Bar.Close bars) i)

/-- The OBV accumulator list: obv[0] = 0, then add/subtract the day's volume
according to the sign of the close-to-close move (on the forward-filled
frame, which is what the loop reads). -/
def obvQ (bars : List Bar) : ℕ → ℚ
  | 0 => 0
  | i + 1 =>
      if (prepBar bars (i + 1)).Close > (prepBar bars i).Close then
        obvQ bars i + (prepBar bars (i + 1)).Volume
      else if (prepBar bars (i + 1)).Close < (prepBar bars i).Close then
        obvQ bars i - (prepBar bars (i + 1)).Volume
      else obvQ bars i

/-- OBV column: the accumulator as a Series, shifted one period. -/
def OBVcol (bars : List Bar) : Series :=
  shift1 (fun i => if i < bars.length then .val (obvQ bars i) else .nan)

/-- plus_dm = High.diff() (as in the source: the raw signed difference). -/
def plusDM (bars : List Bar) : Series := diffS (prepAt Bar.High bars)

/-- minus_dm = Low.diff().abs(). -/
def minusDM (bars : List Bar) : Series := fun i =>
  (diffS (prepAt Bar.Low bars) i).pabs

/-- True range: row-wise max (skipna) of high-low, |high - prevClose|,
|low - prevClose|. -/
def trS (bars : List Bar) : Series := fun i =>
  PFloat.pmax
    (PFloat.pmax (prepAt Bar.High bars i - prepAt Bar.Low bars i)
      ((prepAt Bar.High bars i - shift1 (prepAt Bar.Close bars) i).pabs))
    ((prepAt Bar.Low bars i - shift1 (prepAt Bar.Close bars) i).pabs)

/-- ATR before the final shift: 14-period rolling mean of the true range. -/
def atrRaw (bars : List Bar) : Series := rollingMean 14 (trS bars)

/-- ATR column (shifted one period). -/
def ATRcol (bars : List Bar) : Series := shift1 (atrRaw bars)

/-- +DI before the final shift: 100 * rolling14(plus_dm) / atr. -/
def plusDIraw (bars : List Bar) : Series := fun i =>
  .val 100 * (rollingMean 14 (plusDM bars) i / atrRaw bars i)

/-- -DI before the final shift: 100 * rolling14(minus_dm) / atr. -/
def minusDIraw (bars : List Bar) : Series := fun i =>
  .val 100 * (rollingMean 14 (minusDM bars) i / atrRaw bars i)

/-- The +DI column (shifted one period). -/
def plusDIcol (bars : List Bar) : Series := shift1 (plusDIraw bars)

/-- The -DI column (shifted one period). -/
def minusDIcol (bars : List Bar) : Series := shift1 (minusDIraw bars)

/-- ADX before the final shift:
rolling14(|+DI - -DI| / (+DI + -DI)) * 100 on the intermediate DI series. -/
def adxRaw (bars : List Bar) : Series := fun i =>
  rollingMean 14
    (fun j => (plusDIraw bars j - minusDIraw bars j).pabs /
      (plusDIraw bars j + minusDIraw bars j)) i * .val 100

/-- ADX column (shifted one period). -/
def ADXcol (bars : List Bar) : Series := shift1 (adxRaw bars)

/-- One row of the table built by compute_indicators before dropna: the
(forward-filled) OHLCV values, the calendar fields, and the twenty derived
indicator columns.  pDI and mDI are the +DI and -DI columns. -/
structure FullRow where
  Open : PFloat
  High : PFloat
  Low : PFloat
  Close : PFloat
  Volume : PFloat
  Year : PFloat
  Month : PFloat
  Day : PFloat
  MA5 : PFloat
  MA10 : PFloat
  MA20 : PFloat
  MA50 : PFloat
  RSI : PFloat
  MACD : PFloat
  VWAP : PFloat
  Upper_band : PFloat
  Lower_band : PFloat
  OBV : PFloat
  pDI : PFloat
  mDI : PFloat
  ADX : PFloat
  ATR : PFloat
  Open_yes : PFloat
  High_yes : PFloat
  Low_yes : PFloat
  Close_yes : PFloat
  Volume_yes : PFloat
  Prev_Close : PFloat
deriving DecidableEq, Repr, Inhabited

/-- The row of the enriched frame at position i (date d), assembled from the
column definitions above; f is the abstract floating square root. -/
def fullRowAt (f : ℚ → ℚ) (bars : List Bar) (d : TradingDate) (i : ℕ) : FullRow where
  Open := prepAt Bar.Open bars i
  High := prepAt Bar.High bars i
  Low := prepAt Bar.Low bars i
  Close := prepAt Bar.Close bars i
  Volume := prepAt Bar.Volume bars i
  Year := .val (d.year : ℚ)
  Month := .val (d.month : ℚ)
  Day := .val (d.day : ℚ)
  MA5 := MA5col bars i
  MA10 := MA10col bars i
  MA20 := MA20col bars i
  MA50 := MA50col bars i
  RSI := RSIcol bars i
  MACD := MACDcol bars i
  VWAP := VWAPcol bars i
  Upper_band := upperBandCol f bars i
  Lower_band := lowerBandCol f bars i
  OBV := OBVcol bars i
  pDI := plusDIcol bars i
  mDI := minusDIcol bars i
  ADX := ADXcol bars i
  ATR := ATRcol bars i
  Open_yes := shift1 (prepAt Bar.Open bars) i
  High_yes := shift1 (prepAt Bar.High bars) i
  Low_yes := shift1 (prepAt Bar.Low bars) i
  Close_yes := shift1 (prepAt Bar.Close bars) i
  Volume_yes := shift1 (prepAt Bar.Volume bars) i
  Prev_Close := shift1 (prepAt Bar.Close bars) i

/-- The twenty derived feature fields of a row (the lagged indicator and
OHLCV columns), in table order.  Calendar and same-day OHLCV fields are not
derived features. -/
def derivedFields (r : FullRow) : List PFloat :=
  [r.MA5, r.MA10, r.MA20, r.MA50, r.RSI, r.MACD, r.VWAP, r.Upper_band,
   r.Lower_band, r.OBV, r.pDI, r.mDI, r.ADX, r.ATR, r.Open_yes, r.High_yes,
   r.Low_yes, r.Close_yes, r.Volume_yes, r.Prev_Close]

/-- True when some field of the row is missing (the dropna criterion). -/
def FullRow.hasNaN (r : FullRow) : Bool :=
  r.Open.isNaN || r.High.isNaN || r.Low.isNaN || r.Close.isNaN ||
  r.Volume.isNaN || r.Year.isNaN || r.Month.isNaN || r.Day.isNaN ||
  r.MA5.isNaN || r.MA10.isNaN || r.MA20.isNaN || r.MA50.isNaN ||
  r.RSI.isNaN || r.MACD.isNaN || r.VWAP.isNaN || r.Upper_band.isNaN ||
  r.Lower_band.isNaN || r.OBV.isNaN || r.pDI.isNaN || r.mDI.isNaN ||
  r.ADX.isNaN || r.ATR.isNaN || r.Open_yes.isNaN || r.High_yes.isNaN ||
  r.Low_yes.isNaN || r.Close_yes.isNaN || r.Volume_yes.isNaN ||
  r.Prev_Close.isNaN

/-- The error taxonomy of the pipeline.  schemaErr names the no-data outcome
of the compute_indicators guard (the source prints a message and returns an
empty frame, which every caller treats as no data via .empty).
emptyFitValueErr is sklearn's ValueError when a scaler is fit on zero
samples; shapeIndexErr is numpy's IndexError when shape[2] is read from an
empty window array.  insufficientData appears only in the specification's
taxonomy; no code path produces it. -/
inductive PipelineError where
  | schemaErr : PipelineError
  | insufficientData : PipelineError
  | emptyFitValueErr : PipelineError
  | shapeIndexErr : PipelineError
deriving DecidableEq, Repr

/-- compute_indicators: guard on empty frame / missing Close column
(returning the no-data result), then in-place outlier replacement and
forward fill, indicator assembly, and dropna.  f is the abstract floating
square root of the Bollinger computation. -/
def computeIndicators (f : ℚ → ℚ) (fr : RawFrame) :
    Except PipelineError (List (TradingDate × FullRow)) :=
  if fr.rows.isEmpty || !fr.hasClose then .error .schemaErr
  else
    .ok (((List.range fr.rows.length).map (fun i =>
      ((fr.rows.getD i default).1,
        fullRowAt f fr.bars (fr.rows.getD i default).1 i))).filter
      (fun p => !p.2.hasNaN))

/-- The feature column list of format_feature, verbatim from the source
(note Volume_yes appears both first and fifth-from-last). -/
def featureColumns : List String :=
  ["Volume_yes", "Year", "Month", "Day", "MA5", "MA10", "MA20", "MA50",
   "RSI", "MACD", "VWAP", "Upper_band", "Lower_band", "ATR", "Prev_Close",
   "ADX", "-DI", "+DI", "Close_yes", "Open_yes", "High_yes", "Low_yes",
   "Volume_yes", "OBV"]

/-- Projection of one table row onto the feature columns, in list order. -/
def rowFeatures (r : FullRow) : List PFloat :=
  [r.Volume_yes, r.Year, r.Month, r.Day, r.MA5, r.MA10, r.MA20, r.MA50,
   r.RSI, r.MACD, r.VWAP, r.Upper_band, r.Lower_band, r.ATR, r.Prev_Close,
   r.ADX, r.mDI, r.pDI, r.Close_yes, r.Open_yes, r.High_yes, r.Low_yes,
   r.Volume_yes, r.OBV]

/-- One forward-fill step: missing entries take the previous row's (already
filled) value in the same column. -/
def ffillRow (prev row : List PFloat) : List PFloat :=
  (List.range row.length).map (fun j =>
    let x := row.getD j .nan
    if x.isNaN then prev.getD j .nan else x)

/-- Column-wise forward fill of a frame, carrying the last filled row. -/
def ffillFrameGo (prev : List PFloat) : List (List PFloat) → List (List PFloat)
  | [] => []
  | r :: rs =>
      let r2 := ffillRow prev r
      r2 :: ffillFrameGo r2 rs

/-- DataFrame.fillna(method=ffill): leading missing values stay missing. -/
def ffillFrame (rows : List (List PFloat)) : List (List PFloat) :=
  ffillFrameGo [] rows

/-- Series forward fill, carrying the last filled value. -/
def ffillSeriesGo (prev : PFloat) : List PFloat → List PFloat
  | [] => []
  | v :: vs =>
      let v2 := if v.isNaN then prev else v
      v2 :: ffillSeriesGo v2 vs

/-- Series.fillna(method=ffill). -/
def ffillSeries (l : List PFloat) : List PFloat := ffillSeriesGo .nan l

/-- The feature frame X returned by format_feature: the fixed column-name
list together with the date index and the projected rows. -/
structure FeatureFrame where
  colNames : List String
  index : List TradingDate
  rowsX : List (List PFloat)
deriving DecidableEq, Repr

/-- The target series y returned by format_feature. -/
structure TargetSeries where
  index : List TradingDate
  values : List PFloat
deriving DecidableEq, Repr

/-- format_feature: X = data[features].iloc[1:], y =
data[Close].pct_change().iloc[1:]; any remaining missing value in X or y is
forward-filled (with a printed warning). -/
def formatFeature (table : List (TradingDate × FullRow)) :
    FeatureFrame × TargetSeries :=
  let idx := (table.map (·.1)).drop 1
  let xraw := (table.map (fun p => rowFeatures p.2)).drop 1
  let xrows :=
    if xraw.any (fun r => r.any (fun v => v.isNaN)) then ffillFrame xraw
    else xraw
  let closes : ℕ → PFloat := fun i => (table.getD i default).2.Close
  let yraw := ((List.range table.length).map (fun i =>
    if i = 0 then PFloat.nan
    else (closes i - closes (i - 1)) / closes (i - 1))).drop 1
  let yvals :=
    if yraw.any (fun v => v.isNaN) then ffillSeries yraw else yraw
  (⟨featureColumns, idx, xrows⟩, ⟨idx, yvals⟩)

/-- sklearn MinMaxScaler state after fit: the per-column data minimum and
maximum observed on the fitted (training) data. -/
structure MinMaxScaler where
  dataMin : ℚ
  dataMax : ℚ
deriving DecidableEq, Repr, Inhabited

/-- The scaling denominator: the data range, with sklearn's
handle_zeros_in_scale replacing a zero range by 1. -/
def MinMaxScaler.scaleDenom (s : MinMaxScaler) : ℚ :=
  if s.dataMax - s.dataMin = 0 then 1 else s.dataMax - s.dataMin

/-- The forward transform for the default feature range (0, 1):
v maps to (v - dataMin) / range, with no clamping. -/
def MinMaxScaler.transform (s : MinMaxScaler) (v : ℚ) : ℚ :=
  (v - s.dataMin) / s.scaleDenom

/-- The inverse transform: v maps to v * range + dataMin. -/
def MinMaxScaler.inverseTransform (s : MinMaxScaler) (v : ℚ) : ℚ :=
  v * s.scaleDenom + s.dataMin

/-- MinMaxScaler.fit on one column; sklearn raises ValueError on an input
with zero samples. -/
def fitColumn (col : List ℚ) : Except PipelineError MinMaxScaler :=
  match col with
  | [] => .error .emptyFitValueErr
  | c :: cs => .ok ⟨cs.foldl min c, cs.foldl max c⟩

/-- MinMaxScaler.fit on a row-major 2-d array, one scaler per column;
ValueError on zero samples. -/
def fitColumns (rows : List (List ℚ)) : Except PipelineError (List MinMaxScaler) :=
  match rows with
  | [] => .error .emptyFitValueErr
  | r0 :: rest => .ok ((List.range r0.length).map (fun j =>
      ⟨(rest.map (fun r => r.getD j 0)).foldl min (r0.getD j 0),
       (rest.map (fun r => r.getD j 0)).foldl max (r0.getD j 0)⟩))

/-- Per-column application of the fitted scalers to one row. -/
def transformRow (scalers : List MinMaxScaler) (r : List ℚ) : List ℚ :=
  (List.range scalers.length).map (fun j =>
    (scalers.getD j default).transform (r.getD j 0))

/-- create_sequences: for every i in range(len(features) - n_steps) append
the slice features[i : i + n_steps] and the scalar target[i + n_steps].
The target index is always in bounds at the call sites (features and target
slices have equal length); Python would raise IndexError otherwise. -/
def create_sequences {F T : Type} [Inhabited T] (features : List F)
    (target : List T) (n_steps : ℕ) : List (List F) × List T :=
  ((List.range (features.length - n_steps)).map
      (fun i => (features.drop i).take n_steps),
   (List.range (features.length - n_steps)).map
      (fun i => target.getD (i + n_steps) default))

/-- np.array(list).shape for the 3-d window stack: an empty list gives the
1-d shape (0,), a list of empty windows gives a 2-d shape, otherwise
(count, window length, feature width). -/
def npShape (xs : List (List (List ℚ))) : List ℕ :=
  match xs with
  | [] => [0]
  | w :: _ =>
      if w.isEmpty then [xs.length, 0]
      else [xs.length, w.length, (w.headD []).length]

/-- split_idx = int(len(X) * 0.8); exact for binary floats at every length
(the float product never crosses an integer boundary), so it is the floor
of 4*lenX/5. -/
def split_idx (lenX : ℕ) : ℕ := 4 * lenX / 5

/-- The data-preparation result of train_and_predict_lstm up to model
construction: the model input size read from X_train.shape[2] and the two
window counts. -/
structure PrepOut where
  inputSize : ℕ
  trainSeqCount : ℕ
  valSeqCount : ℕ
deriving DecidableEq, Repr

/-- The data-preparation prefix of train_and_predict_lstm (and the
identical prefix of train_and_predict_gru): chronological 80/20 split,
scaler fits on the train slices only, scaling of both slices, windowing of
each slice separately, and the X_train.shape[2] read that sizes the model.
Each fallible library step surfaces as the corresponding error. -/
def lstmPrep (X : List (List ℚ)) (y : List ℚ) (n_steps : ℕ) :
    Except PipelineError PrepOut := do
  let split := split_idx X.length
  let X_train_raw := X.take split
  let X_val_raw := X.drop split
  let y_train_raw := y.take split
  let y_val_raw := y.drop split
  let sy ← fitColumn y_train_raw
  let sX ← fitColumns X_train_raw
  let y_train_scaled := y_train_raw.map sy.transform
  let y_val_scaled := y_val_raw.map sy.transform
  let X_train_scaled := X_train_raw.map (transformRow sX)
  let X_val_scaled := X_val_raw.map (transformRow sX)
  let (X_train, _y_train) := create_sequences X_train_scaled y_train_scaled n_steps
  let (X_val, _y_val) := create_sequences X_val_scaled y_val_scaled n_steps
  match (npShape X_train).get? 2 with
  | none => .error .shapeIndexErr
  | some m => .ok ⟨m, X_train.length, X_val.length⟩

/-- The original-data position attached to validation window i:
split_idx + n_steps + i. -/
def originalIdx (lenX n i : ℕ) : ℕ := split_idx lenX + n + i

/-- The number of validation windows: len(X_val_scaled) - n_steps, clipped
at zero (an empty range). -/
def valWindowCount (lenX n : ℕ) : ℕ := (lenX - split_idx lenX) - n

/-- The guard of the validation inference loop:
original_idx < len(data) and original_idx < len(y). -/
def emitGuard (lenData lenY oi : ℕ) : Bool :=
  decide (oi < lenData) && decide (oi < lenY)

/-- data[Close].iloc[original_idx - 1] under Python indexing: for
original_idx = 0 the index -1 wraps to the last element. -/
def closeAtPrev (closes : List ℚ) (oi : ℕ) : ℚ :=
  if oi = 0 then (closes.getLast?).getD 0 else closes.getD (oi - 1) 0

/-- The predictions list of the inference loop: one price
(1 + y_pred) * close[original_idx - 1] per guard-passing window.  data is
the (date, Close) view of the stock frame, yv the target values, preds the
inverse-scaled model outputs per window. -/
def predictionsOf (data : List (TradingDate × ℚ)) (yv : List ℚ)
    (lenX n : ℕ) (preds : ℕ → ℚ) : List ℚ :=
  (List.range (valWindowCount lenX n)).filterMap (fun i =>
    if emitGuard data.length yv.length (originalIdx lenX n i) then
      some ((1 + preds i) * closeAtPrev (data.map (·.2)) (originalIdx lenX n i))
    else none)

/-- The test_indices list: data.index[original_idx] per guard-passing
window. -/
def testIndicesOf (data : List (TradingDate × ℚ)) (yv : List ℚ)
    (lenX n : ℕ) : List TradingDate :=
  (List.range (valWindowCount lenX n)).filterMap (fun i =>
    if emitGuard data.length yv.length (originalIdx lenX n i) then
      some (data.getD (originalIdx lenX n i) default).1
    else none)

/-- The predict_percentages list: y_pred * 100 per guard-passing window. -/
def predictPercentagesOf (data : List (TradingDate × ℚ)) (yv : List ℚ)
    (lenX n : ℕ) (preds : ℕ → ℚ) : List ℚ :=
  (List.range (valWindowCount lenX n)).filterMap (fun i =>
    if emitGuard data.length yv.length (originalIdx lenX n i) then
      some (preds i * 100)
    else none)

/-- The actual_percentages list: y.iloc[original_idx] * 100 per
guard-passing window. -/
def actualPercentagesOf (data : List (TradingDate × ℚ)) (yv : List ℚ)
    (lenX n : ℕ) : List ℚ :=
  (List.range (valWindowCount lenX n)).filterMap (fun i =>
    if emitGuard data.length yv.length (originalIdx lenX n i) then
      some (yv.getD (originalIdx lenX n i) 0 * 100)
    else none)

/-! Helper lemmas. -/

/-- A left fold of min never exceeds its initial accumulator. -/
lemma foldl_min_le_init (c : ℚ) (cs : List ℚ) : cs.foldl min c ≤ c := by
  induction cs generalizing c with
  | nil => exact le_refl c
  | cons x xs ih => exact le_trans (ih (min c x)) (min_le_left c x)

/-- A left fold of max is at least its initial accumulator. -/
lemma init_le_foldl_max (c : ℚ) (cs : List ℚ) : c ≤ cs.foldl max c := by
  induction cs generalizing c with
  | nil => exact le_refl c
  | cons x xs ih => exact le_trans (le_max_left c x) (ih (max c x))

/-- filterMap collapses to map when every element produces a value. -/
lemma filterMap_eq_map_of_forall {α β : Type} (l : List α) (f : α → Option β)
    (g : α → β) (h : ∀ a ∈ l, f a = some (g a)) : l.filterMap f = l.map g := by
  induction l with
  | nil => rfl
  | cons x xs ih =>
      simp only [List.filterMap_cons, h x (List.mem_cons_self x xs), List.map_cons]
      exact congrArg _ (ih (fun a ha => h a (List.mem_cons_of_mem x ha)))

/-! Claim theorems. -/

/-- C3: create_sequences applied to features of length L and an aligned
target yields, for every start index i in [0, L - n_steps), the window of
n_steps consecutive feature rows starting at i paired with the target at
index i + n_steps; hence both outputs have length L - n_steps whenever
n_steps < L, and for n_steps >= L both outputs are empty rather than an
error. -/
theorem create_sequences_spec {F T : Type} [Inhabited T]
    (features : List F) (target : List T) (n_steps : ℕ)
    (h : target.length = features.length) :
    (∀ i, i < features.length - n_steps →
      (create_sequences features target n_steps).1.get? i =
        some ((features.drop i).take n_steps) ∧
      ((features.drop i).take n_steps).length = n_steps ∧
      (create_sequences features target n_steps).2.get? i =
        target.get? (i + n_steps)) ∧
    (n_steps < features.length →
      (create_sequences features target n_steps).1.length =
        features.length - n_steps ∧
      (create_sequences features target n_steps).2.length =
        features.length - n_steps) ∧
    (features.length ≤ n_steps →
      (create_sequences features target n_steps).1 = [] ∧
      (create_sequences features target n_steps).2 = []) := by
  refine ⟨fun i hi => ⟨?_, ?_, ?_⟩, fun hlt => ⟨?_, ?_⟩, fun hge => ⟨?_, ?_⟩⟩
  · simp [create_sequences, List.get?_eq_getElem?, List.getElem?_map,
      List.getElem?_range, hi]
  · have h1 : i ≤ features.length - n_steps := le_of_lt hi
    simp only [List.length_take, List.length_drop]
    omega
  · have hb : i + n_steps < target.length := by omega
    simp [create_sequences, List.get?_eq_getElem?, List.getElem?_map,
      List.getElem?_range, hi, List.getD_eq_getElem?_getD,
      List.getElem?_eq_getElem hb]
  · simp [create_sequences]
  · simp [create_sequences]
  · simp [create_sequences, Nat.sub_eq_zero_of_le hge]
  · simp [create_sequences, Nat.sub_eq_zero_of_le hge]

/-- Witness for C3 at a concrete aligned pair with n_steps = 2 and L = 5. -/
theorem create_sequences_spec_witness :
    ([10, 20, 30, 40, 50] : List ℚ).length = ([1, 2, 3, 4, 5] : List ℚ).length ∧
    ((∀ i, i < ([1, 2, 3, 4, 5] : List ℚ).length - 2 →
      (create_sequences ([1, 2, 3, 4, 5] : List ℚ) ([10, 20, 30, 40, 50] : List ℚ) 2).1.get? i =
        some ((([1, 2, 3, 4, 5] : List ℚ).drop i).take 2) ∧
      ((([1, 2, 3, 4, 5] : List ℚ).drop i).take 2).length = 2 ∧
      (create_sequences ([1, 2, 3, 4, 5] : List ℚ) ([10, 20, 30, 40, 50] : List ℚ) 2).2.get? i =
        ([10, 20, 30, 40, 50] : List ℚ).get? (i + 2)) ∧
    (2 < ([1, 2, 3, 4, 5] : List ℚ).length →
      (create_sequences ([1, 2, 3, 4, 5] : List ℚ) ([10, 20, 30, 40, 50] : List ℚ) 2).1.length =
        ([1, 2, 3, 4, 5] : List ℚ).length - 2 ∧
      (create_sequences ([1, 2, 3, 4, 5] : List ℚ) ([10, 20, 30, 40, 50] : List ℚ) 2).2.length =
        ([1, 2, 3, 4, 5] : List ℚ).length - 2) ∧
    (([1, 2, 3, 4, 5] : List ℚ).length ≤ 2 →
      (create_sequences ([1, 2, 3, 4, 5] : List ℚ) ([10, 20, 30, 40, 50] : List ℚ) 2).1 = [] ∧
      (create_sequences ([1, 2, 3, 4, 5] : List ℚ) ([10, 20, 30, 40, 50] : List ℚ) 2).2 = [])) :=
  ⟨rfl, create_sequences_spec [1, 2, 3, 4, 5] [10, 20, 30, 40, 50] 2 rfl⟩

/-- C6: a min-max scaler fitted on a train column realises the affine map
v to (v - min)/(max - min) whenever the column is not constant; the
inverse transform undoes the forward transform exactly for every value
(in-range or not); and the forward transform is not clamped: values above
the fitted maximum map strictly above 1 and values below the fitted
minimum map strictly below 0. -/
theorem scaler_round_trip (col : List ℚ) (s : MinMaxScaler)
    (hfit : fitColumn col = .ok s) :
    (s.dataMax ≠ s.dataMin →
      ∀ v : ℚ, s.transform v = (v - s.dataMin) / (s.dataMax - s.dataMin)) ∧
    (∀ v : ℚ, s.inverseTransform (s.transform v) = v) ∧
    (s.dataMax ≠ s.dataMin →
      ∀ v : ℚ, (s.dataMax < v → 1 < s.transform v) ∧
        (v < s.dataMin → s.transform v < 0)) := by
  obtain ⟨c, cs, rfl⟩ : ∃ c cs, col = c :: cs := by
    cases col with
    | nil => simp [fitColumn] at hfit
    | cons c cs => exact ⟨c, cs, rfl⟩
  have hs : s = ⟨cs.foldl min c, cs.foldl max c⟩ := by
    simpa [fitColumn] using hfit.symm
  have hle : s.dataMin ≤ s.dataMax := by
    rw [hs]
    exact le_trans (foldl_min_le_init c cs) (init_le_foldl_max c cs)
  refine ⟨fun hne v => ?_, fun v => ?_, fun hne v => ⟨fun hv => ?_, fun hv => ?_⟩⟩
  · have : s.dataMax - s.dataMin ≠ 0 := sub_ne_zero_of_ne hne
    simp [MinMaxScaler.transform, MinMaxScaler.scaleDenom, this]
  · by_cases hz : s.dataMax - s.dataMin = 0
    · simp [MinMaxScaler.transform, MinMaxScaler.inverseTransform,
        MinMaxScaler.scaleDenom, hz]
    · simp only [MinMaxScaler.transform, MinMaxScaler.inverseTransform,
        MinMaxScaler.scaleDenom, if_neg hz]
      field_simp
  · have hpos : 0 < s.dataMax - s.dataMin :=
      sub_pos.mpr (lt_of_le_of_ne hle (Ne.symm hne))
    have hz : s.dataMax - s.dataMin ≠ 0 := ne_of_gt hpos
    simp only [MinMaxScaler.transform, MinMaxScaler.scaleDenom, if_neg hz]
    rw [lt_div_iff₀ hpos, one_mul]
    linarith
  · have hpos : 0 < s.dataMax - s.dataMin :=
      sub_pos.mpr (lt_of_le_of_ne hle (Ne.symm hne))
    have hz : s.dataMax - s.dataMin ≠ 0 := ne_of_gt hpos
    simp only [MinMaxScaler.transform, MinMaxScaler.scaleDenom, if_neg hz]
    exact div_neg_of_neg_of_pos (by linarith) hpos

/-- Witness for C6 on the train column [2, 6, 4]: fitted min 2, max 6. -/
theorem scaler_round_trip_witness :
    fitColumn [2, 6, 4] = .ok ⟨2, 6⟩ ∧
    (((⟨2, 6⟩ : MinMaxScaler).dataMax ≠ (⟨2, 6⟩ : MinMaxScaler).dataMin →
      ∀ v : ℚ, (⟨2, 6⟩ : MinMaxScaler).transform v =
        (v - (⟨2, 6⟩ : MinMaxScaler).dataMin) /
          ((⟨2, 6⟩ : MinMaxScaler).dataMax - (⟨2, 6⟩ : MinMaxScaler).dataMin)) ∧
    (∀ v : ℚ, (⟨2, 6⟩ : MinMaxScaler).inverseTransform
        ((⟨2, 6⟩ : MinMaxScaler).transform v) = v) ∧
    ((⟨2, 6⟩ : MinMaxScaler).dataMax ≠ (⟨2, 6⟩ : MinMaxScaler).dataMin →
      ∀ v : ℚ, ((⟨2, 6⟩ : MinMaxScaler).dataMax < v →
          1 < (⟨2, 6⟩ : MinMaxScaler).transform v) ∧
        (v < (⟨2, 6⟩ : MinMaxScaler).dataMin →
          (⟨2, 6⟩ : MinMaxScaler).transform v < 0))) :=
  ⟨by rfl, scaler_round_trip [2, 6, 4] ⟨2, 6⟩ (by rfl)⟩

/-- C7: compute_indicators on an empty table, or on a table without a Close
column, yields the schema failure, which the source realises as the
recoverable no-data result (a printed message and an empty returned frame)
rather than a raised exception. -/
theorem schema_guard_no_data (f : ℚ → ℚ) (fr : RawFrame)
    (h : fr.rows = [] ∨ fr.hasClose = false) :
    computeIndicators f fr = .error .schemaErr := by
  rcases h with h | h <;> simp [computeIndicators, h]

/-- Witness for C7 at the empty frame. -/
theorem schema_guard_no_data_witness :
    ((⟨[], true⟩ : RawFrame).rows = [] ∨ (⟨[], true⟩ : RawFrame).hasClose = false) ∧
    computeIndicators id ⟨[], true⟩ = .error .schemaErr :=
  ⟨Or.inl rfl, schema_guard_no_data id ⟨[], true⟩ (Or.inl rfl)⟩

/-- A row whose outlier mask is off keeps its own raw bar after the
outlier-replacement and forward-fill step. -/
lemma prepBar_eq_of_not_outlier (bars : List Bar) (i : ℕ)
    (h : outlier bars i = false) : prepBar bars i = bars.getD i default := by
  cases i with
  | zero => rfl
  | succ k => simp [prepBar, h]

/-- C5: in compute_indicators, every row (past the first) whose raw
close-to-close percentage change exceeds 0.3 in absolute value is replaced,
across all five OHLCV columns, by the previous (already forward-filled)
row before any indicator is computed: the forward-filled bar at t equals
the forward-filled bar at t-1, and every OHLCV column series feeding the
indicator computations reads that prior value at t. -/
theorem outlier_rows_forward_filled (bars : List Bar) (t : ℕ)
    (ht : 1 ≤ t) (hlen : t < bars.length) (hout : outlier bars t = true) :
    prepBar bars t = prepBar bars (t - 1) ∧
    ∀ p : Bar → ℚ, prepAt p bars t = .val (p (prepBar bars (t - 1))) := by
  obtain ⟨k, rfl⟩ : ∃ k, t = k + 1 := ⟨t - 1, by omega⟩
  have h1 : prepBar bars (k + 1) = prepBar bars k := by simp [prepBar, hout]
  refine ⟨by simpa using h1, fun p => ?_⟩
  simp only [prepAt, if_pos hlen, h1, Nat.add_sub_cancel]

/-- Demonstration bars: the third bar carries a +50 percent single-day
close-to-close return (100 to 150). -/
def demoOutlierBars : List Bar :=
  [⟨100, 102, 99, 100, 10⟩, ⟨101, 103, 100, 100, 11⟩,
   ⟨150, 155, 149, 150, 12⟩, ⟨151, 156, 150, 152, 13⟩]

/-- The outlier mask on the demonstration bars: only position 2 (the +50
percent bar) is flagged. -/
lemma demo_outlier_mask :
    outlier demoOutlierBars 1 = false ∧ outlier demoOutlierBars 2 = true ∧
    outlier demoOutlierBars 3 = false := by
  refine ⟨?_, ?_, ?_⟩ <;>
    norm_num [outlier, rawPct, rawAt, demoOutlierBars, PFloat.gtB, PFloat.ltB,
      PFloat.pabs, PFloat.sub_def, PFloat.div_def, PFloat.sub, PFloat.add,
      PFloat.neg, PFloat.div, abs_of_pos, abs_of_nonpos]

/-- Witness for C5: the +50 percent bar at position 2 of the demonstration
data is replaced by the forward-filled previous bar. -/
theorem outlier_rows_forward_filled_witness :
    (1 ≤ 2 ∧ 2 < demoOutlierBars.length ∧ outlier demoOutlierBars 2 = true) ∧
    (prepBar demoOutlierBars 2 = prepBar demoOutlierBars (2 - 1) ∧
     ∀ p : Bar → ℚ, prepAt p demoOutlierBars 2 =
       .val (p (prepBar demoOutlierBars (2 - 1)))) :=
  ⟨⟨by decide, by decide, demo_outlier_mask.2.1⟩,
   outlier_rows_forward_filled demoOutlierBars 2 (by decide) (by decide)
     demo_outlier_mask.2.1⟩

/-- Demonstration frame wrapping the outlier bars with a date index. -/
def demoFrame : RawFrame :=
  ⟨[(⟨2020, 1, 6⟩, ⟨100, 102, 99, 100, 10⟩),
    (⟨2020, 1, 7⟩, ⟨101, 103, 100, 100, 11⟩),
    (⟨2020, 1, 8⟩, ⟨150, 155, 149, 150, 12⟩),
    (⟨2020, 1, 9⟩, ⟨151, 156, 150, 152, 13⟩)], true⟩

/-- Counterexample to C9: after a guard-passing compute_indicators call the
caller's OHLCV data is NOT the data that was passed in — the in-place
outlier replacement and forward fill of lines 72 and 75 (and the column
assignments that follow) mutate the caller's frame. -/
theorem compute_indicators_mutates_caller :
    (computeIndicators id demoFrame).isOk = true ∧
    callerBarsAfter demoFrame.bars ≠ demoFrame.bars := by
  have hb : demoFrame.bars = demoOutlierBars := rfl
  have p0 : prepBar demoOutlierBars 0 = ⟨100, 102, 99, 100, 10⟩ := rfl
  have p1 : prepBar demoOutlierBars 1 = ⟨101, 103, 100, 100, 11⟩ := by
    show (if outlier demoOutlierBars 1 then prepBar demoOutlierBars 0
      else demoOutlierBars.getD 1 default) = _
    rw [demo_outlier_mask.1]
    rfl
  have p2 : prepBar demoOutlierBars 2 = ⟨101, 103, 100, 100, 11⟩ := by
    show (if outlier demoOutlierBars 2 then prepBar demoOutlierBars 1
      else demoOutlierBars.getD 2 default) = _
    rw [demo_outlier_mask.2.1, p1]
    rfl
  have p3 : prepBar demoOutlierBars 3 = ⟨151, 156, 150, 152, 13⟩ := by
    show (if outlier demoOutlierBars 3 then prepBar demoOutlierBars 2
      else demoOutlierBars.getD 3 default) = _
    rw [demo_outlier_mask.2.2]
    rfl
  have hc : callerBarsAfter demoOutlierBars =
      [⟨100, 102, 99, 100, 10⟩, ⟨101, 103, 100, 100, 11⟩,
       ⟨101, 103, 100, 100, 11⟩, ⟨151, 156, 150, 152, 13⟩] := by
    rw [callerBarsAfter, show demoOutlierBars.length = 4 from rfl,
      show List.range 4 = [0, 1, 2, 3] from rfl]
    simp only [List.map_cons, List.map_nil]
    rw [p0, p1, p2, p3]
  refine ⟨rfl, ?_⟩
  rw [hb, hc]
  decide

/-- C9 (amended): compute_indicators is deterministic (it is a pure
function of the frame value in this embedding) but not effect-free: the
caller's frame is mutated in place.  The caller's OHLCV values survive the
call unchanged exactly in the benign case, namely when no row's raw
close-to-close change exceeds 0.3 in absolute value. -/
theorem caller_bars_preserved_when_no_outliers (bars : List Bar)
    (h : ∀ i, i < bars.length → outlier bars i = false) :
    callerBarsAfter bars = bars := by
  apply List.ext_getElem
  · simp [callerBarsAfter]
  · intro i h1 h2
    simp only [callerBarsAfter, List.getElem_map, List.getElem_range]
    rw [prepBar_eq_of_not_outlier bars i (h i h2)]
    simp [List.getD_eq_getElem?_getD, List.getElem?_eq_getElem h2]

/-- On the two benign demonstration bars (a 10 percent move) no row is
flagged as an outlier. -/
lemma demo_no_outlier :
    ∀ i, i < ([⟨1, 2, 1, 100, 5⟩, ⟨1, 2, 1, 110, 5⟩] : List Bar).length →
      outlier [⟨1, 2, 1, 100, 5⟩, ⟨1, 2, 1, 110, 5⟩] i = false := by
  intro i hi
  have h2 : i < 2 := by simpa using hi
  clear hi
  interval_cases i
  · rfl
  · norm_num [outlier, rawPct, rawAt, PFloat.gtB, PFloat.ltB, PFloat.pabs,
      PFloat.sub_def, PFloat.div_def, PFloat.sub, PFloat.add, PFloat.neg,
      PFloat.div, abs_of_pos, abs_of_nonpos]

/-- Witness for C9 (amended) on two bars with a 10 percent move (no
outlier): the caller's data is preserved. -/
theorem caller_bars_preserved_witness :
    (∀ i, i < ([⟨1, 2, 1, 100, 5⟩, ⟨1, 2, 1, 110, 5⟩] : List Bar).length →
      outlier [⟨1, 2, 1, 100, 5⟩, ⟨1, 2, 1, 110, 5⟩] i = false) ∧
    callerBarsAfter [⟨1, 2, 1, 100, 5⟩, ⟨1, 2, 1, 110, 5⟩] =
      [⟨1, 2, 1, 100, 5⟩, ⟨1, 2, 1, 110, 5⟩] :=
  ⟨demo_no_outlier, caller_bars_preserved_when_no_outliers _ demo_no_outlier⟩

/-- Counterexample to C8: on a ten-row feature set with the default window
n_steps = 30 the chronological split leaves eight train rows, windowing is
empty, and the pipeline fails reading X_train.shape[2] (a numpy IndexError),
not with an InsufficientDataError — no code path produces one. -/
theorem insufficient_data_claim_refuted :
    lstmPrep [[1], [2], [3], [4], [5], [6], [7], [8], [9], [10]]
        [1, 2, 3, 4, 5, 6, 7, 8, 9, 10] 30 =
      .error .shapeIndexErr ∧
    PipelineError.shapeIndexErr ≠ PipelineError.insufficientData :=
  ⟨rfl, by decide⟩

/-- C8 (amended): whenever the 80/20 train slice is too short to yield any
window of n_steps rows, the pipeline does fail before training, but with a
generic library error — sklearn's ValueError when the train slice is empty,
or numpy's IndexError reading the third shape dimension of the empty window
array — never with a named InsufficientDataError. -/
theorem empty_train_windowing_errors (X : List (List ℚ)) (y : List ℚ)
    (n_steps : ℕ) (hy : y.length = X.length)
    (hempty : split_idx X.length ≤ n_steps) :
    ∃ e, lstmPrep X y n_steps = .error e ∧
      e ≠ PipelineError.insufficientData := by
  by_cases hz : split_idx X.length = 0
  · refine ⟨.emptyFitValueErr, ?_, by decide⟩
    simp [lstmPrep, hz, fitColumn, Bind.bind, Except.bind]
  · obtain ⟨k, hk⟩ : ∃ k, split_idx X.length = k + 1 :=
      ⟨split_idx X.length - 1, by omega⟩
    have hL2 : 2 ≤ X.length := by
      by_contra hcon
      have : X.length = 0 ∨ X.length = 1 := by omega
      rcases this with h | h <;> simp [split_idx, h] at hk
    obtain ⟨a, ys, rfl⟩ : ∃ a ys, y = a :: ys := by
      cases y with
      | nil => simp at hy; omega
      | cons a ys => exact ⟨a, ys, rfl⟩
    obtain ⟨x, xs, rfl⟩ : ∃ x xs, X = x :: xs := by
      cases X with
      | nil => simp at hL2
      | cons x xs => exact ⟨x, xs, rfl⟩
    refine ⟨.shapeIndexErr, ?_, by decide⟩
    have hkn : k + 1 ≤ n_steps := hk ▸ hempty
    have hkL : k + 1 ≤ (x :: xs).length := by
      have hdiv := hk
      simp only [split_idx, List.length_cons] at hdiv
      rw [List.length_cons]
      omega
    have hkxs : k ≤ xs.length := by
      rw [List.length_cons] at hkL
      omega
    simp only [lstmPrep, hk, List.take_succ_cons, fitColumn, fitColumns,
      List.drop_succ_cons, Bind.bind, Except.bind, create_sequences]
    have hlen : ((x :: List.take k xs).map
        (transformRow ((List.range x.length).map (fun j =>
          ⟨((List.take k xs).map (fun r => r.getD j 0)).foldl min (x.getD j 0),
           ((List.take k xs).map (fun r => r.getD j 0)).foldl max (x.getD j 0)⟩)))).length
        = k + 1 := by
      simp [List.length_take, Nat.min_eq_left hkxs]
    rw [hlen, Nat.sub_eq_zero_of_le hkn]
    simp [npShape]

/-- Witness for C8 (amended) at the ten-row example. -/
theorem empty_train_windowing_errors_witness :
    ([1, 2, 3, 4, 5, 6, 7, 8, 9, 10] : List ℚ).length =
      ([[1], [2], [3], [4], [5], [6], [7], [8], [9], [10]] : List (List ℚ)).length ∧
    split_idx ([[1], [2], [3], [4], [5], [6], [7], [8], [9], [10]] : List (List ℚ)).length ≤ 30 ∧
    ∃ e, lstmPrep [[1], [2], [3], [4], [5], [6], [7], [8], [9], [10]]
        [1, 2, 3, 4, 5, 6, 7, 8, 9, 10] 30 = .error e ∧
      e ≠ PipelineError.insufficientData :=
  ⟨rfl, by decide,
   empty_train_windowing_errors _ _ 30 rfl (by decide)⟩

/-- The guard of the validation inference loop always holds when the
feature and target lengths come from format_feature on the same frame. -/
lemma emitGuard_always (data : List (TradingDate × ℚ)) (yv : List ℚ)
    (lenX n : ℕ) (hX : lenX + 1 = data.length) (hy : yv.length = lenX) :
    ∀ i, i < valWindowCount lenX n →
      emitGuard data.length yv.length (originalIdx lenX n i) = true := by
  intro i hi
  have hsle : split_idx lenX ≤ lenX := by
    simp only [split_idx]
    omega
  have hoi : originalIdx lenX n i < lenX := by
    simp only [valWindowCount] at hi
    simp only [originalIdx]
    omega
  simp only [emitGuard, Bool.and_eq_true, decide_eq_true_eq]
  omega

/-- C10: with X and y produced by format_feature on the same stock frame
(len X = len y = len data - 1), the skip branch of the validation inference
loop is unreachable: the bounds guard holds for every validation window,
and all four result sequences have exactly valWindowCount lenX n =
(len X - split_idx - n_steps) entries. -/
theorem inference_guard_unreachable_skip (data : List (TradingDate × ℚ))
    (yv : List ℚ) (lenX n : ℕ) (preds : ℕ → ℚ)
    (hX : lenX + 1 = data.length) (hy : yv.length = lenX) :
    (∀ i, i < valWindowCount lenX n →
      emitGuard data.length yv.length (originalIdx lenX n i) = true) ∧
    (predictionsOf data yv lenX n preds).length = valWindowCount lenX n ∧
    (testIndicesOf data yv lenX n).length = valWindowCount lenX n ∧
    (predictPercentagesOf data yv lenX n preds).length = valWindowCount lenX n ∧
    (actualPercentagesOf data yv lenX n).length = valWindowCount lenX n ∧
    valWindowCount lenX n = lenX - split_idx lenX - n := by
  have hguard := emitGuard_always data yv lenX n hX hy
  refine ⟨hguard, ?_, ?_, ?_, ?_, ?_⟩
  · rw [predictionsOf, filterMap_eq_map_of_forall _ _
      (fun i => (1 + preds i) * closeAtPrev (data.map (·.2)) (originalIdx lenX n i))
      (fun a ha => if_pos (hguard a (List.mem_range.mp ha)))]
    simp
  · rw [testIndicesOf, filterMap_eq_map_of_forall _ _
      (fun i => (data.getD (originalIdx lenX n i) default).1)
      (fun a ha => if_pos (hguard a (List.mem_range.mp ha)))]
    simp
  · rw [predictPercentagesOf, filterMap_eq_map_of_forall _ _
      (fun i => preds i * 100)
      (fun a ha => if_pos (hguard a (List.mem_range.mp ha)))]
    simp
  · rw [actualPercentagesOf, filterMap_eq_map_of_forall _ _
      (fun i => yv.getD (originalIdx lenX n i) 0 * 100)
      (fun a ha => if_pos (hguard a (List.mem_range.mp ha)))]
    simp
  · simp [valWindowCount]

/-- Demonstration stock frame view: seven dates with closes 1..7. -/
def demoData7 : List (TradingDate × ℚ) :=
  [(⟨2020, 1, 1⟩, 1), (⟨2020, 1, 2⟩, 2), (⟨2020, 1, 3⟩, 3),
   (⟨2020, 1, 4⟩, 4), (⟨2020, 1, 5⟩, 5), (⟨2020, 1, 6⟩, 6),
   (⟨2020, 1, 7⟩, 7)]

/-- The aligned format_feature target of demoData7: the close-to-close
returns at positions 1..6 of the frame. -/
def demoYv6 : List ℚ := [1, 1 / 2, 1 / 3, 1 / 4, 1 / 5, 1 / 6]

/-- Witness for C10 at the seven-row frame with n_steps = 1. -/
theorem inference_guard_unreachable_skip_witness :
    (6 + 1 = demoData7.length ∧ demoYv6.length = 6) ∧
    ((∀ i, i < valWindowCount 6 1 →
      emitGuard demoData7.length demoYv6.length (originalIdx 6 1 i) = true) ∧
    (predictionsOf demoData7 demoYv6 6 1 (fun _ => 0)).length = valWindowCount 6 1 ∧
    (testIndicesOf demoData7 demoYv6 6 1).length = valWindowCount 6 1 ∧
    (predictPercentagesOf demoData7 demoYv6 6 1 (fun _ => 0)).length = valWindowCount 6 1 ∧
    (actualPercentagesOf demoData7 demoYv6 6 1).length = valWindowCount 6 1 ∧
    valWindowCount 6 1 = 6 - split_idx 6 - 1) :=
  ⟨⟨rfl, rfl⟩,
   inference_guard_unreachable_skip demoData7 demoYv6 6 1 (fun _ => 0) rfl rfl⟩

/-- demoYv6 is exactly the format_feature-style percentage-change target of
the demoData7 closes. -/
lemma demo_yv_eq : demoYv6 = (List.range 6).map (fun k =>
    ((demoData7.getD (k + 1) default).2 - (demoData7.getD k default).2) /
      (demoData7.getD k default).2) := by
  norm_num [demoYv6, demoData7, List.range_succ]

/-- Counterexample to C2: on the seven-row frame with n_steps = 1 the sole
validation record has date data.index[5]; the claim requires
actual_return_pct = 100 * (close[5] - close[4]) / close[4] = 20, but the
code records y.iloc[5] * 100 = 100 * (close[6] - close[5]) / close[5]
= 100/6 — the return of the date after the recorded date. -/
theorem actual_return_claim_refuted :
    demoYv6 = (List.range 6).map (fun k =>
      ((demoData7.getD (k + 1) default).2 - (demoData7.getD k default).2) /
        (demoData7.getD k default).2) ∧
    (actualPercentagesOf demoData7 demoYv6 6 1).get? 0 = some (100 / 6) ∧
    ((demoData7.getD 5 default).2 - (demoData7.getD 4 default).2) /
      (demoData7.getD 4 default).2 * 100 = 20 ∧
    (100 / 6 : ℚ) ≠ 20 := by
  refine ⟨demo_yv_eq, ?_, by norm_num [demoData7], by norm_num⟩
  norm_num [actualPercentagesOf, emitGuard, originalIdx, demoData7, demoYv6,
    show valWindowCount 6 1 = 1 from rfl, show split_idx 6 = 4 from rfl,
    show List.range 1 = [0] from rfl, List.filterMap_cons]

/-- C2 (amended): each validation record at date t = data.index[original_idx]
records predicted_price = (1 + predicted_return) * close[t-1] (position
original_idx - 1), as claimed; but its actual_return_pct is the
close-to-close return of the position AFTER the record's date:
100 * (close[original_idx + 1] - close[original_idx]) / close[original_idx],
i.e. y.iloc[original_idx], where y is offset one position from data. -/
theorem inference_record_values (data : List (TradingDate × ℚ)) (yv : List ℚ)
    (lenX n i : ℕ) (preds : ℕ → ℚ)
    (hX : lenX + 1 = data.length)
    (hyv : yv = (List.range lenX).map (fun k =>
      ((data.getD (k + 1) default).2 - (data.getD k default).2) /
        (data.getD k default).2))
    (hn : 1 ≤ n) (hi : i < valWindowCount lenX n) :
    (actualPercentagesOf data yv lenX n).get? i =
      some (((data.getD (originalIdx lenX n i + 1) default).2 -
        (data.getD (originalIdx lenX n i) default).2) /
        (data.getD (originalIdx lenX n i) default).2 * 100) ∧
    (predictionsOf data yv lenX n preds).get? i =
      some ((1 + preds i) * (data.getD (originalIdx lenX n i - 1) default).2) ∧
    (testIndicesOf data yv lenX n).get? i =
      some (data.getD (originalIdx lenX n i) default).1 := by
  have hy : yv.length = lenX := by
    rw [hyv]
    simp
  have hguard := emitGuard_always data yv lenX n hX hy
  have hsle : split_idx lenX ≤ lenX := by
    simp only [split_idx]
    omega
  have hoi_lt : originalIdx lenX n i < lenX := by
    simp only [valWindowCount] at hi
    simp only [originalIdx]
    omega
  have hoi_pos : 1 ≤ originalIdx lenX n i := by
    simp only [originalIdx]
    omega
  refine ⟨?_, ?_, ?_⟩
  · rw [actualPercentagesOf, filterMap_eq_map_of_forall _ _
      (fun j => yv.getD (originalIdx lenX n j) 0 * 100)
      (fun a ha => if_pos (hguard a (List.mem_range.mp ha)))]
    simp only [List.get?_eq_getElem?, List.getElem?_map, List.getElem?_range hi,
      Option.map_some']
    rw [hyv, List.getD_eq_getElem?_getD, List.getElem?_map,
      List.getElem?_range hoi_lt]
    simp
  · rw [predictionsOf, filterMap_eq_map_of_forall _ _
      (fun j => (1 + preds j) * closeAtPrev (data.map (·.2)) (originalIdx lenX n j))
      (fun a ha => if_pos (hguard a (List.mem_range.mp ha)))]
    simp only [List.get?_eq_getElem?, List.getElem?_map, List.getElem?_range hi,
      Option.map_some']
    have hprev_lt : originalIdx lenX n i - 1 < data.length := by omega
    rw [closeAtPrev, if_neg (show ¬ originalIdx lenX n i = 0 by omega)]
    rw [List.getD_eq_getElem?_getD, List.getElem?_map,
      List.getElem?_eq_getElem hprev_lt]
    rw [List.getD_eq_getElem?_getD, List.getElem?_eq_getElem hprev_lt]
    simp
  · rw [testIndicesOf, filterMap_eq_map_of_forall _ _
      (fun j => (data.getD (originalIdx lenX n j) default).1)
      (fun a ha => if_pos (hguard a (List.mem_range.mp ha)))]
    simp only [List.get?_eq_getElem?, List.getElem?_map, List.getElem?_range hi,
      Option.map_some']

/-- Witness for C2 (amended) at the seven-row frame, window 0. -/
theorem inference_record_values_witness :
    (6 + 1 = demoData7.length ∧ 1 ≤ 1 ∧ 0 < valWindowCount 6 1) ∧
    ((actualPercentagesOf demoData7 demoYv6 6 1).get? 0 =
      some (((demoData7.getD (originalIdx 6 1 0 + 1) default).2 -
        (demoData7.getD (originalIdx 6 1 0) default).2) /
        (demoData7.getD (originalIdx 6 1 0) default).2 * 100) ∧
    (predictionsOf demoData7 demoYv6 6 1 (fun _ => 0)).get? 0 =
      some ((1 + (0 : ℚ)) * (demoData7.getD (originalIdx 6 1 0 - 1) default).2) ∧
    (testIndicesOf demoData7 demoYv6 6 1).get? 0 =
      some (demoData7.getD (originalIdx 6 1 0) default).1) :=
  ⟨⟨rfl, le_refl 1, by decide⟩,
   inference_record_values demoData7 demoYv6 6 1 0 (fun _ => 0) rfl demo_yv_eq
     (le_refl 1) (by decide)⟩

/-- Demonstration OHLCV frame with three benign rows (about one percent
daily moves). -/
def demoFrame3 : RawFrame :=
  ⟨[(⟨2021, 3, 1⟩, ⟨100, 101, 99, 100, 50⟩),
    (⟨2021, 3, 2⟩, ⟨101, 102, 100, 101, 51⟩),
    (⟨2021, 3, 3⟩, ⟨102, 103, 101, 102, 52⟩)], true⟩

/-- compute_indicators on the three-row frame keeps no row: every row lacks
the 50-period moving average, so dropna empties the table. -/
lemma demo_indicators_empty : computeIndicators id demoFrame3 = .ok [] := by
  have hrow : ∀ (d : TradingDate) (i : ℕ), i < 3 →
      (fullRowAt id demoFrame3.bars d i).hasNaN = true := by
    intro d i hi
    have hma : (MA50col demoFrame3.bars i).isNaN = true := by
      simp only [MA50col, rollingMean]
      rw [if_pos (by omega : i + 1 < 50)]
      rfl
    simp only [FullRow.hasNaN, fullRowAt, Bool.or_eq_true]
    tauto
  have h0 := hrow ⟨2021, 3, 1⟩ 0 (by omega)
  have h1 := hrow ⟨2021, 3, 2⟩ 1 (by omega)
  have h2 := hrow ⟨2021, 3, 3⟩ 2 (by omega)
  simp only [computeIndicators, demoFrame3, List.isEmpty_cons, Bool.not_true,
    Bool.or_self, Bool.false_or, if_false, List.length_cons, List.length_nil]
  rw [show List.range 3 = [0, 1, 2] from rfl]
  simp only [List.map_cons, List.map_nil, List.getD_cons_zero,
    List.getD_cons_succ, List.filter_cons, List.filter_nil]
  rw [show (demoFrame3.bars : List Bar) =
    [⟨100, 101, 99, 100, 50⟩, ⟨101, 102, 100, 101, 51⟩,
     ⟨102, 103, 101, 102, 52⟩] from rfl] at h0 h1 h2
  simp [h0, h1, h2, RawFrame.bars, demoFrame3]

/-- Counterexample to C4: the three-row frame yields an indicator table (the
empty one), and format_feature on it returns an X whose column list has 24
entries (Volume_yes is selected twice), not exactly 23 named columns. -/
theorem feature_columns_claim_refuted :
    computeIndicators id demoFrame3 = .ok [] ∧
    (formatFeature []).1.colNames.length = 24 ∧
    (formatFeature []).1.colNames.length ≠ 23 :=
  ⟨demo_indicators_empty, rfl, by decide⟩

/-- An in-range getD value is a member of the list. -/
lemma getD_mem_of_lt {A : Type} [Inhabited A] (l : List A) (i : ℕ) (d : A)
    (h : i < l.length) : l.getD i d ∈ l := by
  rw [List.getD_eq_getElem?_getD, List.getElem?_eq_getElem h, Option.getD_some]
  exact List.getElem_mem h

/-- Fields of a dropna-surviving row are free of missing values, hence so is
its feature projection. -/
lemma rowFeatures_no_nan (r : FullRow) (h : r.hasNaN = false) :
    (rowFeatures r).any PFloat.isNaN = false := by
  simp only [FullRow.hasNaN, Bool.or_eq_false_iff] at h
  simp only [rowFeatures, List.any_cons, List.any_nil, Bool.or_eq_false_iff]
  tauto

/-- Rows of a computeIndicators table survive the dropna filter, so none of
their fields is missing. -/
lemma table_rows_no_nan (f : ℚ → ℚ) (fr : RawFrame)
    (table : List (TradingDate × FullRow))
    (h : computeIndicators f fr = .ok table) :
    ∀ p ∈ table, p.2.hasNaN = false := by
  by_cases hg : (fr.rows.isEmpty || !fr.hasClose) = true
  · simp [computeIndicators, hg] at h
  · simp only [computeIndicators, hg, Bool.false_eq_true, if_false,
      Except.ok.injEq] at h
    intro p hp
    rw [← h] at hp
    have := List.of_mem_filter hp
    simpa using this

/-- C4 (amended): for every indicator table produced by compute_indicators
(whose rows have nonzero close values, the realistic case), format_feature
returns X with the fixed ordered column list of 24 entries — Volume_yes
appears twice, so there are 23 distinct names — whose rows are the feature
projections with the first row dropped, and y equal to the percentage
change of close with the first row dropped, aligned to the same index. -/
theorem format_feature_contract (f : ℚ → ℚ) (fr : RawFrame)
    (table : List (TradingDate × FullRow))
    (h : computeIndicators f fr = .ok table)
    (hcl : ∀ p ∈ table, ∃ q : ℚ, q ≠ 0 ∧ p.2.Close = .val q) :
    (formatFeature table).1.colNames = featureColumns ∧
    featureColumns.length = 24 ∧
    featureColumns.dedup.length = 23 ∧
    (formatFeature table).1.index = (table.map (·.1)).drop 1 ∧
    (formatFeature table).2.index = (formatFeature table).1.index ∧
    (formatFeature table).1.rowsX = (table.map (fun p => rowFeatures p.2)).drop 1 ∧
    (formatFeature table).2.values = ((List.range table.length).map (fun i =>
      if i = 0 then PFloat.nan
      else ((table.getD i default).2.Close - (table.getD (i - 1) default).2.Close) /
        (table.getD (i - 1) default).2.Close)).drop 1 ∧
    (formatFeature table).1.rowsX.length = table.length - 1 ∧
    (formatFeature table).2.values.length = table.length - 1 := by
  have hnn := table_rows_no_nan f fr table h
  have hx : ((table.map (fun p => rowFeatures p.2)).drop 1).any
      (fun r => r.any (fun v => v.isNaN)) = false := by
    rw [List.any_eq_false]
    intro r hr
    obtain ⟨p, hp, rfl⟩ := List.mem_map.mp (List.mem_of_mem_drop hr)
    simpa using rowFeatures_no_nan p.2 (hnn p hp)
  have hyr : (((List.range table.length).map (fun i =>
      if i = 0 then PFloat.nan
      else ((table.getD i default).2.Close - (table.getD (i - 1) default).2.Close) /
        (table.getD (i - 1) default).2.Close)).drop 1).any
      (fun v => v.isNaN) = false := by
    rw [List.any_eq_false]
    intro v hv
    rw [List.mem_iff_getElem] at hv
    obtain ⟨k, hk, hkv⟩ := hv
    rw [List.getElem_drop] at hkv
    have hklen : 1 + k < table.length := by
      have := hk
      simp [List.length_drop] at this
      omega
    rw [List.getElem_map, List.getElem_range] at hkv
    have hne : ¬ (1 + k = 0) := by omega
    rw [if_neg hne] at hkv
    have hprev : table.getD (1 + k - 1) default ∈ table :=
      getD_mem_of_lt table (1 + k - 1) default (by omega)
    have hcur : table.getD (1 + k) default ∈ table :=
      getD_mem_of_lt table (1 + k) default hklen
    obtain ⟨q, hq0, hqc⟩ := hcl _ hprev
    obtain ⟨a, ha0, hac⟩ := hcl _ hcur
    rw [hqc, hac] at hkv
    rw [← hkv]
    simp [PFloat.sub_def, PFloat.div_def, PFloat.sub, PFloat.add, PFloat.neg,
      PFloat.div, PFloat.isNaN, hq0]
  refine ⟨rfl, rfl, by decide, rfl, rfl, ?_, ?_, ?_, ?_⟩
  · simp only [formatFeature, hx, Bool.false_eq_true, if_false]
  · simp only [formatFeature, hyr, Bool.false_eq_true, if_false]
  · simp only [formatFeature, hx, Bool.false_eq_true, if_false,
      List.length_drop, List.length_map]
  · simp only [formatFeature, hyr, Bool.false_eq_true, if_false,
      List.length_drop, List.length_map, List.length_range]

/-- Witness for C4 (amended) at the table produced from the three-row
frame. -/
theorem format_feature_contract_witness :
    (computeIndicators id demoFrame3 = .ok [] ∧
     (∀ p ∈ ([] : List (TradingDate × FullRow)),
       ∃ q : ℚ, q ≠ 0 ∧ p.2.Close = .val q)) ∧
    ((formatFeature ([] : List (TradingDate × FullRow))).1.colNames = featureColumns ∧
    featureColumns.length = 24 ∧
    featureColumns.dedup.length = 23 ∧
    (formatFeature ([] : List (TradingDate × FullRow))).1.index =
      (([] : List (TradingDate × FullRow)).map (·.1)).drop 1 ∧
    (formatFeature ([] : List (TradingDate × FullRow))).2.index =
      (formatFeature ([] : List (TradingDate × FullRow))).1.index ∧
    (formatFeature ([] : List (TradingDate × FullRow))).1.rowsX =
      (([] : List (TradingDate × FullRow)).map (fun p => rowFeatures p.2)).drop 1 ∧
    (formatFeature ([] : List (TradingDate × FullRow))).2.values =
      ((List.range ([] : List (TradingDate × FullRow)).length).map (fun i =>
        if i = 0 then PFloat.nan
        else ((([] : List (TradingDate × FullRow)).getD i default).2.Close -
          (([] : List (TradingDate × FullRow)).getD (i - 1) default).2.Close) /
          (([] : List (TradingDate × FullRow)).getD (i - 1) default).2.Close)).drop 1 ∧
    (formatFeature ([] : List (TradingDate × FullRow))).1.rowsX.length =
      ([] : List (TradingDate × FullRow)).length - 1 ∧
    (formatFeature ([] : List (TradingDate × FullRow))).2.values.length =
      ([] : List (TradingDate × FullRow)).length - 1) :=
  ⟨⟨demo_indicators_empty, by simp⟩,
   format_feature_contract id demoFrame3 [] demo_indicators_empty (by simp)⟩

/-! Causality framework for the no-lookahead property (C1): two runs whose
inputs agree on a prefix produce series that agree on that prefix. -/

/-- Two series agree at every position up to n. -/
def AgreeUpto (n : ℕ) (s1 s2 : Series) : Prop := ∀ j, j ≤ n → s1 j = s2 j

/-- A shifted series starts with a missing value. -/
lemma shift1_at_zero (s : Series) : shift1 s 0 = .nan := rfl

/-- A rolling mean is missing before the window fills. -/
lemma rollingMean_nan_of_lt (w : ℕ) (s : Series) (i : ℕ) (h : i + 1 < w) :
    rollingMean w s i = .nan := by
  unfold rollingMean
  rw [if_pos h]

/-- Shifting extends agreement one position forward. -/
lemma agree_shift1 {n : ℕ} {s1 s2 : Series} (h : AgreeUpto n s1 s2) :
    AgreeUpto (n + 1) (shift1 s1) (shift1 s2) := by
  intro j hj
  unfold shift1
  by_cases h0 : j = 0
  · simp [h0]
  · simp only [h0, if_false]
    exact h (j - 1) (by omega)

/-- The rolling window is determined by the agreed prefix. -/
lemma agree_windowVals {n : ℕ} {s1 s2 : Series} (h : AgreeUpto n s1 s2)
    (w : ℕ) {i : ℕ} (hi : i ≤ n) : windowVals w s1 i = windowVals w s2 i := by
  unfold windowVals
  exact List.map_congr_left (fun a _ => h (i - a) (by omega))

/-- Rolling means preserve prefix agreement. -/
lemma agree_rollingMean {n w : ℕ} {s1 s2 : Series} (h : AgreeUpto n s1 s2) :
    AgreeUpto n (rollingMean w s1) (rollingMean w s2) := by
  intro j hj
  unfold rollingMean
  rw [agree_windowVals h w hj]

/-- Rolling standard deviations preserve prefix agreement. -/
lemma agree_rollingStd {n w : ℕ} (f : ℚ → ℚ) {s1 s2 : Series}
    (h : AgreeUpto n s1 s2) :
    AgreeUpto n (rollingStd f w s1) (rollingStd f w s2) := by
  intro j hj
  unfold rollingStd
  rw [agree_windowVals h w hj]

/-- First differences preserve prefix agreement. -/
lemma agree_diffS {n : ℕ} {s1 s2 : Series} (h : AgreeUpto n s1 s2) :
    AgreeUpto n (diffS s1) (diffS s2) := by
  intro j hj
  unfold diffS shift1
  by_cases h0 : j = 0
  · subst h0
    simp [h 0 hj]
  · simp only [h0, if_false]
    rw [h j hj, h (j - 1) (by omega)]

/-- The exponential moving average recurrence preserves prefix agreement. -/
lemma agree_ewmF {n : ℕ} (a : ℚ) {s1 s2 : Series} (h : AgreeUpto n s1 s2) :
    AgreeUpto n (ewmF a s1) (ewmF a s2) := by
  intro j hj
  induction j with
  | zero => simp only [ewmF, h 0 hj]
  | succ k ih =>
      simp only [ewmF]
      rw [ih (by omega), h (k + 1) hj]

/-- Cumulative sums preserve prefix agreement. -/
lemma agree_csum {n : ℕ} {s1 s2 : Series} (h : AgreeUpto n s1 s2) :
    AgreeUpto n (csum s1) (csum s2) := by
  intro j hj
  induction j with
  | zero => simp only [csum, h 0 hj]
  | succ k ih =>
      simp only [csum]
      rw [ih (by omega), h (k + 1) hj]

section causality

variable {b1 b2 : List Bar} {n : ℕ}

/-- Raw column series agree on the agreed input prefix. -/
lemma agree_rawAt (hpre : ∀ j, j ≤ n → b1.get? j = b2.get? j) (p : Bar → ℚ) :
    AgreeUpto n (rawAt p b1) (rawAt p b2) := by
  intro j hj
  unfold rawAt
  simp only [List.get?_eq_getElem?] at hpre ⊢
  simp only [hpre j hj]

/-- The raw percent-change series agrees on the prefix. -/
lemma agree_rawPct (hpre : ∀ j, j ≤ n → b1.get? j = b2.get? j) :
    AgreeUpto n (rawPct b1) (rawPct b2) := by
  intro j hj
  unfold rawPct
  by_cases h0 : j = 0
  · simp [h0]
  · simp only [h0, if_false]
    rw [agree_rawAt hpre Bar.Close j hj,
      agree_rawAt hpre Bar.Close (j - 1) (by omega)]

/-- The outlier mask agrees on the prefix. -/
lemma agree_outlier (hpre : ∀ j, j ≤ n → b1.get? j = b2.get? j) :
    ∀ j, j ≤ n → outlier b1 j = outlier b2 j := by
  intro j hj
  unfold outlier
  rw [agree_rawPct hpre j hj]

/-- The forward-filled bars agree on the prefix. -/
lemma agree_prepBar (hpre : ∀ j, j ≤ n → b1.get? j = b2.get? j) :
    ∀ j, j ≤ n → prepBar b1 j = prepBar b2 j := by
  intro j hj
  induction j with
  | zero =>
      simp only [prepBar, List.getD_eq_getElem?_getD, ← List.get?_eq_getElem?,
        hpre 0 hj]
  | succ k ih =>
      simp only [prepBar, List.getD_eq_getElem?_getD, ← List.get?_eq_getElem?]
      rw [agree_outlier hpre (k + 1) hj, ih (by omega), hpre (k + 1) hj]

/-- The forward-filled column series agree on the prefix (equal lengths are
needed for the in-frame test). -/
lemma agree_prepAt (hlen : b1.length = b2.length)
    (hpre : ∀ j, j ≤ n → b1.get? j = b2.get? j) (p : Bar → ℚ) :
    AgreeUpto n (prepAt p b1) (prepAt p b2) := by
  intro j hj
  unfold prepAt
  rw [hlen, agree_prepBar hpre j hj]

/-- The OBV accumulator agrees on the prefix. -/
lemma agree_obvQ (hpre : ∀ j, j ≤ n → b1.get? j = b2.get? j) :
    ∀ j, j ≤ n → obvQ b1 j = obvQ b2 j := by
  intro j hj
  induction j with
  | zero => rfl
  | succ k ih =>
      simp only [obvQ]
      rw [agree_prepBar hpre (k + 1) hj, agree_prepBar hpre k (by omega),
        ih (by omega)]

end causality

/-- C1 (no-lookahead): if two input bar tables of equal length agree on all
bars strictly before position t — i.e. any raw bar at position >= t may be
perturbed — then all twenty derived feature fields of the compute_indicators
row at position t (moving averages, RSI, MACD, VWAP, Bollinger bands, OBV,
ADX and both DI columns, ATR, and the lagged OHLCV columns) are identical
in the two runs, for every floating square root f. -/
theorem no_lookahead (f : ℚ → ℚ) (b1 b2 : List Bar) (d : TradingDate) (t : ℕ)
    (hlen : b1.length = b2.length)
    (hpre : ∀ j, j < t → b1.get? j = b2.get? j) :
    derivedFields (fullRowAt f b1 d t) = derivedFields (fullRowAt f b2 d t) := by
  cases t with
  | zero =>
      simp only [derivedFields, fullRowAt, MA5col, MA10col, MA20col, MA50col,
        RSIcol, MACDcol, VWAPcol, upperBandCol, lowerBandCol, OBVcol,
        plusDIcol, minusDIcol, ADXcol, ATRcol, shift1_at_zero,
        rollingMean_nan_of_lt 5 _ 0 (by omega),
        rollingMean_nan_of_lt 10 _ 0 (by omega),
        rollingMean_nan_of_lt 20 _ 0 (by omega),
        rollingMean_nan_of_lt 50 _ 0 (by omega)]
  | succ n =>
      have hpre' : ∀ j, j ≤ n → b1.get? j = b2.get? j :=
        fun j hj => hpre j (by omega)
      have hO := agree_prepAt (n := n) hlen hpre' Bar.Open
      have hH := agree_prepAt (n := n) hlen hpre' Bar.High
      have hL := agree_prepAt (n := n) hlen hpre' Bar.Low
      have hC := agree_prepAt (n := n) hlen hpre' Bar.Close
      have hV := agree_prepAt (n := n) hlen hpre' Bar.Volume
      have hCs := agree_shift1 hC
      have hMA5 : MA5col b1 (n + 1) = MA5col b2 (n + 1) :=
        agree_rollingMean hCs (n + 1) le_rfl
      have hMA10 : MA10col b1 (n + 1) = MA10col b2 (n + 1) :=
        agree_rollingMean hCs (n + 1) le_rfl
      have hMA20 : MA20col b1 (n + 1) = MA20col b2 (n + 1) :=
        agree_rollingMean hCs (n + 1) le_rfl
      have hMA50 : MA50col b1 (n + 1) = MA50col b2 (n + 1) :=
        agree_rollingMean hCs (n + 1) le_rfl
      have hpchg := agree_diffS hC
      have hrise : AgreeUpto n
          (fun j => (diffS (prepAt Bar.Close b1) j).clipLower 0)
          (fun j => (diffS (prepAt Bar.Close b2) j).clipLower 0) :=
        fun j hj => by simp only [hpchg j hj]
      have hdrop : AgreeUpto n
          (fun j => -((diffS (prepAt Bar.Close b1) j).clipUpper 0))
          (fun j => -((diffS (prepAt Bar.Close b2) j).clipUpper 0)) :=
        fun j hj => by simp only [hpchg j hj]
      have hrsiRaw : AgreeUpto n (rsiRaw b1) (rsiRaw b2) := by
        intro j hj
        simp only [rsiRaw]
        rw [agree_rollingMean hrise j hj, agree_rollingMean hdrop j hj]
      have hRSI : RSIcol b1 (n + 1) = RSIcol b2 (n + 1) :=
        agree_shift1 hrsiRaw (n + 1) le_rfl
      have hmacdRaw : AgreeUpto n (macdRaw b1) (macdRaw b2) := by
        intro j hj
        simp only [macdRaw]
        rw [agree_ewmF (2 / 13) hC j hj, agree_ewmF (2 / 27) hC j hj]
      have hMACD : MACDcol b1 (n + 1) = MACDcol b2 (n + 1) :=
        agree_shift1 hmacdRaw (n + 1) le_rfl
      have hpv : AgreeUpto n
          (fun j => prepAt Bar.Close b1 j * prepAt Bar.Volume b1 j)
          (fun j => prepAt Bar.Close b2 j * prepAt Bar.Volume b2 j) :=
        fun j hj => by simp only [hC j hj, hV j hj]
      have hvwapRaw : AgreeUpto n (vwapRaw b1) (vwapRaw b2) := by
        intro j hj
        simp only [vwapRaw]
        rw [agree_csum hpv j hj, agree_csum hV j hj]
      have hVWAP : VWAPcol b1 (n + 1) = VWAPcol b2 (n + 1) :=
        agree_shift1 hvwapRaw (n + 1) le_rfl
      have hupRaw : AgreeUpto n
          (fun i => rollingMean 20 (prepAt Bar.Close b1) i +
            .val 2 * rollingStd f 20 (prepAt Bar.Close b1) i)
          (fun i => rollingMean 20 (prepAt Bar.Close b2) i +
            .val 2 * rollingStd f 20 (prepAt Bar.Close b2) i) := by
        intro j hj
        simp only
        rw [agree_rollingMean hC j hj, agree_rollingStd f hC j hj]
      have hUpper : upperBandCol f b1 (n + 1) = upperBandCol f b2 (n + 1) :=
        agree_shift1 hupRaw (n + 1) le_rfl
      have hloRaw : AgreeUpto n
          (fun i => rollingMean 20 (prepAt Bar.Close b1) i -
            .val 2 * rollingStd f 20 (prepAt Bar.Close b1) i)
          (fun i => rollingMean 20 (prepAt Bar.Close b2) i -
            .val 2 * rollingStd f 20 (prepAt Bar.Close b2) i) := by
        intro j hj
        simp only
        rw [agree_rollingMean hC j hj, agree_rollingStd f hC j hj]
      have hLower : lowerBandCol f b1 (n + 1) = lowerBandCol f b2 (n + 1) :=
        agree_shift1 hloRaw (n + 1) le_rfl
      have hobvRaw : AgreeUpto n
          (fun i => if i < b1.length then PFloat.val (obvQ b1 i) else .nan)
          (fun i => if i < b2.length then PFloat.val (obvQ b2 i) else .nan) := by
        intro j hj
        simp only [hlen, agree_obvQ hpre' j hj]
      have hOBV : OBVcol b1 (n + 1) = OBVcol b2 (n + 1) :=
        agree_shift1 hobvRaw (n + 1) le_rfl
      have hplusDM : AgreeUpto n (plusDM b1) (plusDM b2) := by
        intro j hj
        simp only [plusDM]
        exact agree_diffS hH j hj
      have hminusDM : AgreeUpto n (minusDM b1) (minusDM b2) := by
        intro j hj
        simp only [minusDM, agree_diffS hL j hj]
      have htr : AgreeUpto n (trS b1) (trS b2) := by
        intro j hj
        simp only [trS]
        rw [hH j hj, hL j hj, hCs j (by omega)]
      have hatr : AgreeUpto n (atrRaw b1) (atrRaw b2) := by
        intro j hj
        simp only [atrRaw]
        exact agree_rollingMean htr j hj
      have hpdi : AgreeUpto n (plusDIraw b1) (plusDIraw b2) := by
        intro j hj
        simp only [plusDIraw]
        rw [agree_rollingMean hplusDM j hj, hatr j hj]
      have hmdi : AgreeUpto n (minusDIraw b1) (minusDIraw b2) := by
        intro j hj
        simp only [minusDIraw]
        rw [agree_rollingMean hminusDM j hj, hatr j hj]
      have hPDI : plusDIcol b1 (n + 1) = plusDIcol b2 (n + 1) :=
        agree_shift1 hpdi (n + 1) le_rfl
      have hMDI : minusDIcol b1 (n + 1) = minusDIcol b2 (n + 1) :=
        agree_shift1 hmdi (n + 1) le_rfl
      have hdx : AgreeUpto n
          (fun j => (plusDIraw b1 j - minusDIraw b1 j).pabs /
            (plusDIraw b1 j + minusDIraw b1 j))
          (fun j => (plusDIraw b2 j - minusDIraw b2 j).pabs /
            (plusDIraw b2 j + minusDIraw b2 j)) :=
        fun j hj => by simp only [hpdi j hj, hmdi j hj]
      have hadxRaw : AgreeUpto n (adxRaw b1) (adxRaw b2) := by
        intro j hj
        simp only [adxRaw]
        rw [agree_rollingMean hdx j hj]
      have hADX : ADXcol b1 (n + 1) = ADXcol b2 (n + 1) :=
        agree_shift1 hadxRaw (n + 1) le_rfl
      have hATR : ATRcol b1 (n + 1) = ATRcol b2 (n + 1) :=
        agree_shift1 hatr (n + 1) le_rfl
      have hOy : shift1 (prepAt Bar.Open b1) (n + 1) =
          shift1 (prepAt Bar.Open b2) (n + 1) := agree_shift1 hO (n + 1) le_rfl
      have hHy : shift1 (prepAt Bar.High b1) (n + 1) =
          shift1 (prepAt Bar.High b2) (n + 1) := agree_shift1 hH (n + 1) le_rfl
      have hLy : shift1 (prepAt Bar.Low b1) (n + 1) =
          shift1 (prepAt Bar.Low b2) (n + 1) := agree_shift1 hL (n + 1) le_rfl
      have hCy : shift1 (prepAt Bar.Close b1) (n + 1) =
          shift1 (prepAt Bar.Close b2) (n + 1) := agree_shift1 hC (n + 1) le_rfl
      have hVy : shift1 (prepAt Bar.Volume b1) (n + 1) =
          shift1 (prepAt Bar.Volume b2) (n + 1) := agree_shift1 hV (n + 1) le_rfl
      simp only [derivedFields, fullRowAt]
      rw [hMA5, hMA10, hMA20, hMA50, hRSI, hMACD, hVWAP, hUpper, hLower, hOBV,
        hPDI, hMDI, hADX, hATR, hOy, hHy, hLy, hCy, hVy]

/-- The demonstration bars with the bar at position 3 perturbed. -/
def demoPerturbedBars : List Bar :=
  [⟨100, 102, 99, 100, 10⟩, ⟨101, 103, 100, 100, 11⟩,
   ⟨150, 155, 149, 150, 12⟩, ⟨999, 1000, 990, 995, 99⟩]

/-- Witness for C1: perturbing the raw bar at position 3 leaves every
derived feature field of the row at position 3 unchanged. -/
theorem no_lookahead_witness :
    (demoOutlierBars.length = demoPerturbedBars.length ∧
     ∀ j, j < 3 → demoOutlierBars.get? j = demoPerturbedBars.get? j) ∧
    derivedFields (fullRowAt id demoOutlierBars ⟨2020, 1, 9⟩ 3) =
      derivedFields (fullRowAt id demoPerturbedBars ⟨2020, 1, 9⟩ 3) :=
  ⟨⟨rfl, by decide⟩,
   no_lookahead id demoOutlierBars demoPerturbedBars ⟨2020, 1, 9⟩ 3 rfl
     (by decide)⟩

end ST
